import Mathlib

/-!
Shallow embedding of the register-based bytecode core of the wasmi engine:
the instruction-operand encoding primitives of
`crates/wasmi/src/engine/bytecode/utils.rs` and the return protocol of
`crates/wasmi/src/engine/executor/instrs/return_.rs`.

Machine integers are modelled as `Nat`/`Int` with explicit two's-complement
wrapping where the source relies on it. Fallible Rust functions returning
`Result` become `Except`; Rust panics (`unreachable!`, `assert!`,
`.expect(..)`) become the `none` case of an outer `Option`.
-/

deriving instance DecidableEq for Except

namespace Wasmi

/-- Translation-time error kinds of `TranslationError` that the embedded
functions can produce (`RegisterOutOfBounds`, `BranchOffsetOutOfBounds`,
`BlockFuelOutOfBounds`). -/
inductive TranslationError where
  | registerOutOfBounds
  | branchOffsetOutOfBounds
  | blockFuelOutOfBounds
deriving DecidableEq, Repr

/-- Two's-complement wrap of an integer into the 16-bit signed range,
modelling Rust `i16` wrapping arithmetic. -/
def wrap16 (z : Int) : Int :=
  (z + 32768) % 65536 - 32768

/-- Reinterpretation of a 32-bit unsigned value as `i32` (Rust `lo as i32`). -/
def i32ofU32 (n : Nat) : Int :=
  if n < 2 ^ 31 then (n : Int) else (n : Int) - 2 ^ 32

/-- Sign-extending cast of an `i32` value to `u64` (Rust `x as u64` on `i32`). -/
def u64ofI32 (z : Int) : Nat :=
  (z % 2 ^ 64).toNat

/-- Rust `i64::checked_sub`: `none` models the overflow case. -/
def checkedSubI64 (a b : Int) : Option Int :=
  if -2 ^ 63 ≤ a - b ∧ a - b < 2 ^ 63 then some (a - b) else none

/-- Rust `u64::checked_add`: `none` models the overflow case. -/
def checkedAddU64 (a b : Nat) : Option Nat :=
  if a + b < 2 ^ 64 then some (a + b) else none

/-- An index into a register: `struct Reg(i16)`. The field holds the `i16`
value as an `Int`; theorems hypothesize the 16-bit signed range where the
Rust type guarantees it. -/
structure Reg where
  val : Int
deriving DecidableEq, Repr

/-- Rust `Reg::next_n`: wrapping addition of a `u16` count
(`i16::wrapping_add_unsigned`). -/
def Reg.next_n (self : Reg) (n : Nat) : Reg :=
  ⟨wrap16 (self.val + n)⟩

/-- Rust `Reg::prev_n`: wrapping subtraction of a `u16` count
(`i16::wrapping_sub_unsigned`). -/
def Reg.prev_n (self : Reg) (n : Nat) : Reg :=
  ⟨wrap16 (self.val - n)⟩

/-- Rust `Reg::next`. -/
def Reg.next (self : Reg) : Reg :=
  self.next_n 1

/-- Rust `Reg::prev`. -/
def Reg.prev (self : Reg) : Reg :=
  self.prev_n 1

/-- Rust `Reg::is_const`: a register refers to a function-local constant
iff its index is negative. -/
def Reg.is_const (self : Reg) : Bool :=
  self.val < 0

/-- A 32-bit signed branch offset: `struct BranchOffset(i32)`. -/
structure BranchOffset where
  val : Int
deriving DecidableEq, Repr

/-- Rust `BranchOffset::to_i32`. -/
def BranchOffset.to_i32 (self : BranchOffset) : Int :=
  self.val

/-- Rust `BranchOffset::uninit`: the uninitialized state is the value 0. -/
def BranchOffset.uninit : BranchOffset :=
  ⟨0⟩

/-- Rust `BranchOffset::is_init`: initialized iff the value is nonzero. -/
def BranchOffset.is_init (self : BranchOffset) : Bool :=
  self.to_i32 ≠ 0

/-- Rust `BranchOffset::from_src_to_dst`. The arguments are the `u32`
values of the two `Instr` positions. The outer `Option` models the
`unreachable!` panic taken when the `i64` subtraction overflows; the inner
`Except` models the recoverable `Result`. -/
def BranchOffset.from_src_to_dst (src dst : Nat) :
    Option (Except TranslationError BranchOffset) :=
  match checkedSubI64 (dst : Int) (src : Int) with
  | none => none
  | some offset =>
      if -2 ^ 31 ≤ offset ∧ offset < 2 ^ 31 then
        some (Except.ok ⟨offset⟩)
      else
        some (Except.error TranslationError.branchOffsetOutOfBounds)

/-- Rust `BranchOffset::init`: asserts that `valid_offset` is initialized
and that `self` is not, then overwrites `self`. `none` models an assertion
failure; `some` returns the new value of `self`. -/
def BranchOffset.init (self valid_offset : BranchOffset) : Option BranchOffset :=
  if valid_offset.is_init ∧ ¬ self.is_init then some valid_offset else none

/-- A 16-bit signed branch offset: `struct BranchOffset16(i16)`. -/
structure BranchOffset16 where
  val : Int
deriving DecidableEq, Repr

/-- Rust `BranchOffset16::to_i16`. -/
def BranchOffset16.to_i16 (self : BranchOffset16) : Int :=
  self.val

/-- Rust `impl TryFrom<BranchOffset> for BranchOffset16`: succeeds iff the
32-bit delta fits the 16-bit signed range (`i16::try_from`), otherwise
reports `BranchOffsetOutOfBounds`. -/
def BranchOffset16.try_from (offset : BranchOffset) :
    Except TranslationError BranchOffset16 :=
  if -2 ^ 15 ≤ offset.to_i32 ∧ offset.to_i32 < 2 ^ 15 then
    Except.ok ⟨offset.to_i32⟩
  else
    Except.error TranslationError.branchOffsetOutOfBounds

/-- The accumulated fuel to execute a block: `struct BlockFuel(u32)`. -/
structure BlockFuel where
  val : Nat
deriving DecidableEq, Repr

/-- Rust `impl TryFrom<u64> for BlockFuel`: narrows to 32 bits, failing
with `BlockFuelOutOfBounds` if the value does not fit. -/
def BlockFuel.try_from (index : Nat) : Except TranslationError BlockFuel :=
  if index < 2 ^ 32 then Except.ok ⟨index⟩
  else Except.error TranslationError.blockFuelOutOfBounds

/-- Rust `BlockFuel::to_u64`. -/
def BlockFuel.to_u64 (self : BlockFuel) : Nat :=
  self.val

/-- Rust `BlockFuel::bump_by(&mut self, amount: u64)`: the pair returns the
`Result` together with the (possibly updated) receiver, mirroring the
`&mut self` mutation: the field is assigned only after both the widened
addition and the narrowing back to 32 bits succeed. -/
def BlockFuel.bump_by (self : BlockFuel) (amount : Nat) :
    Except TranslationError Unit × BlockFuel :=
  match checkedAddU64 self.to_u64 amount with
  | none => (Except.error TranslationError.blockFuelOutOfBounds, self)
  | some new_amount =>
      if new_amount < 2 ^ 32 then (Except.ok (), ⟨new_amount⟩)
      else (Except.error TranslationError.blockFuelOutOfBounds, self)

/-- The 38 conditional-branch comparators, `enum Comparator`, with `u32`
discriminants 0..37. -/
inductive Comparator where
  | I32Eq | I32Ne | I32LtS | I32LtU | I32LeS | I32LeU | I32GtS | I32GtU
  | I32GeS | I32GeU
  | I32And | I32Or | I32Xor | I32AndEqz | I32OrEqz | I32XorEqz
  | I64Eq | I64Ne | I64LtS | I64LtU | I64LeS | I64LeU | I64GtS | I64GtU
  | I64GeS | I64GeU
  | F32Eq | F32Ne | F32Lt | F32Le | F32Gt | F32Ge
  | F64Eq | F64Ne | F64Lt | F64Le | F64Gt | F64Ge
deriving DecidableEq, Repr

/-- The `u32` discriminant of a `Comparator` (`cmp as u32`). -/
def Comparator.toU32 : Comparator → Nat
  | .I32Eq => 0 | .I32Ne => 1 | .I32LtS => 2 | .I32LtU => 3
  | .I32LeS => 4 | .I32LeU => 5 | .I32GtS => 6 | .I32GtU => 7
  | .I32GeS => 8 | .I32GeU => 9
  | .I32And => 10 | .I32Or => 11 | .I32Xor => 12
  | .I32AndEqz => 13 | .I32OrEqz => 14 | .I32XorEqz => 15
  | .I64Eq => 16 | .I64Ne => 17 | .I64LtS => 18 | .I64LtU => 19
  | .I64LeS => 20 | .I64LeU => 21 | .I64GtS => 22 | .I64GtU => 23
  | .I64GeS => 24 | .I64GeU => 25
  | .F32Eq => 26 | .F32Ne => 27 | .F32Lt => 28 | .F32Le => 29
  | .F32Gt => 30 | .F32Ge => 31
  | .F64Eq => 32 | .F64Ne => 33 | .F64Lt => 34 | .F64Le => 35
  | .F64Gt => 36 | .F64Ge => 37

/-- Decoding of a `u32` discriminant into a `Comparator`
(`Comparator::from_u32` derived via `FromPrimitive`): `none` for any value
outside 0..37. -/
def Comparator.fromU32 : Nat → Option Comparator
  | 0 => some .I32Eq | 1 => some .I32Ne | 2 => some .I32LtS | 3 => some .I32LtU
  | 4 => some .I32LeS | 5 => some .I32LeU | 6 => some .I32GtS | 7 => some .I32GtU
  | 8 => some .I32GeS | 9 => some .I32GeU
  | 10 => some .I32And | 11 => some .I32Or | 12 => some .I32Xor
  | 13 => some .I32AndEqz | 14 => some .I32OrEqz | 15 => some .I32XorEqz
  | 16 => some .I64Eq | 17 => some .I64Ne | 18 => some .I64LtS | 19 => some .I64LtU
  | 20 => some .I64LeS | 21 => some .I64LeU | 22 => some .I64GtS | 23 => some .I64GtU
  | 24 => some .I64GeS | 25 => some .I64GeU
  | 26 => some .F32Eq | 27 => some .F32Ne | 28 => some .F32Lt | 29 => some .F32Le
  | 30 => some .F32Gt | 31 => some .F32Ge
  | 32 => some .F64Eq | 33 => some .F64Ne | 34 => some .F64Lt | 35 => some .F64Le
  | 36 => some .F64Gt | 37 => some .F64Ge
  | _ => none

/-- Pairing of a comparator and a 32-bit branch offset:
`struct ComparatorAndOffset`. -/
structure ComparatorAndOffset where
  cmp : Comparator
  offset : BranchOffset
deriving DecidableEq, Repr

/-- Rust `ComparatorAndOffset::new`. -/
def ComparatorAndOffset.new (cmp : Comparator) (offset : BranchOffset) :
    ComparatorAndOffset :=
  ⟨cmp, offset⟩

/-- Rust `ComparatorAndOffset::as_u64`: `hi << 32 & lo` where `hi` is the
comparator discriminant widened to `u64` and `lo` is the `i32` offset cast
to `u64` (a sign-extending cast). The source combines the two fields with
a bitwise AND. The discriminant is at most 37, so the `u64` shift never
discards bits. -/
def ComparatorAndOffset.as_u64 (self : ComparatorAndOffset) : Nat :=
  (self.cmp.toU32 <<< 32) &&& u64ofI32 self.offset.to_i32

/-- Rust `ComparatorAndOffset::from_u64`: splits a `u64` into the high and
low 32-bit halves, decodes the comparator discriminant from the high half
(`none` on an invalid encoding) and reinterprets the low half as the `i32`
branch offset. -/
def ComparatorAndOffset.from_u64 (value : Nat) : Option ComparatorAndOffset :=
  match Comparator.fromU32 ((value >>> 32) % 2 ^ 32) with
  | none => none
  | some cmp => some ⟨cmp, ⟨i32ofU32 (value &&& 4294967295)⟩⟩

/-! ## Executor state and the return protocol

The return protocol of `return_.rs` operates on collaborators (the call
stack, the value stack, the instruction stream) whose sources are not part
of this repository slice; those collaborators are modelled from the spec,
while the control flow of the return family follows the source. -/

/-- The outcome of a Wasm return statement: `enum ReturnOutcome`. -/
inductive ReturnOutcome where
  | Wasm
  | Host
deriving DecidableEq, Repr

/-- A span of registers: `RegSpan` carries the head register; the length
is supplied by the instruction consuming the span. -/
structure RegSpan where
  head : Reg
deriving DecidableEq, Repr

/-- Modelled from the spec: an activation frame holds a base offset into
the shared value stack, the declared result register span, whether it owns
a distinct module-instance context (with the instance it runs in), and the
instruction pointer to resume at. The source `CallFrame` type is not part
of this repository slice. -/
structure CallFrame where
  base_offset : Nat
  results : RegSpan
  owns_instance : Bool
  instanceId : Nat
  instr_ptr : Nat
deriving DecidableEq, Repr

/-- Modelled from the spec: the continuation pseudo-operand shapes threaded
into the instruction stream after a many-value return instruction — a
fixed-size register-list segment (more continuation operands follow) or a
terminal group of 1, 2 or 3 registers — plus `Other` standing for every
instruction shape that is not a continuation operand. The source
`Instruction` enum is not part of this repository slice. -/
inductive Instruction where
  | RegisterList (r1 r2 r3 : Reg)
  | Register (reg : Reg)
  | Register2 (r1 r2 : Reg)
  | Register3 (r1 r2 r3 : Reg)
  | Other
deriving DecidableEq, Repr

/-- The mutable executor state: the call stack (top frame first), the
shared value stack of uniform 64-bit slots, the instruction pointer (an
index into the instruction stream), the register-window pointer `sp`
(the base offset of the active window), the instance-scoped cache, and
the function-local constant pool addressed by negative registers. -/
structure ExecState where
  calls : List CallFrame
  values : List Nat
  ip : Nat
  sp : Nat
  cache : Nat
  consts : List Nat
deriving DecidableEq, Repr

/-- Modelled from the spec: reading a register — non-negative indices
address the live stack slot at the window base plus the index, negative
indices address the function-local constant pool. The source
`Executor::get_register` is not part of this repository slice. -/
def readReg (stack consts : List Nat) (sp : Nat) (r : Reg) : Nat :=
  if r.val < 0 then consts.getD (-r.val - 1).toNat 0
  else stack.getD (sp + r.val.toNat) 0

/-- Reading a register of the active frame through the executor state. -/
def ExecState.get_register (s : ExecState) (r : Reg) : Nat :=
  readReg s.values s.consts s.sp r

/-- Writing a value into the destination register `r` of the window based
at `base` (the caller's stack pointer in the return protocol). -/
def writeReg (stack : List Nat) (base : Nat) (r : Reg) (v : Nat) : List Nat :=
  stack.set (base + r.val.toNat) v

/-- Rust `Executor::return_impl`: pops the top call frame (panicking — the
outer `none` — if the call stack is empty), truncates the value stack to
the popped frame's base offset, refreshes the instance cache if the popped
frame owned its instance, and either resumes the caller (reinitializing
`ip` and `sp` from it, outcome `Wasm`) or reports `Host` when no frame
remains. -/
def return_impl (s : ExecState) : Option (ReturnOutcome × ExecState) :=
  match s.calls with
  | [] => none
  | returned :: rest =>
      let values := s.values.take returned.base_offset
      let cache :=
        if returned.owns_instance then
          match rest with
          | caller :: _ => caller.instanceId
          | [] => s.cache
        else s.cache
      match rest with
      | caller :: _ =>
          some (ReturnOutcome.Wasm,
            { s with
              calls := rest
              values := values
              cache := cache
              ip := caller.instr_ptr
              sp := caller.base_offset })
      | [] =>
          some (ReturnOutcome.Host,
            { s with calls := [], values := values, cache := cache })

/-- Rust `Executor::execute_return`. -/
def execute_return (s : ExecState) : Option (ReturnOutcome × ExecState) :=
  return_impl s

/-- Rust `Executor::return_caller_results`: peeks at the callee and the
optional caller beneath it (panicking — `none` — on an empty call stack)
and yields the destination window base together with the results span:
the caller's base offset and the callee's declared results, or the root
window at offset 0 with the span starting at register 0 when the root
frame itself is returning. -/
def return_caller_results (s : ExecState) : Option (Nat × RegSpan) :=
  match s.calls with
  | [] => none
  | callee :: rest =>
      match rest with
      | caller :: _ => some (caller.base_offset, callee.results)
      | [] => some (0, ⟨⟨0⟩⟩)

/-- The inner `copy_results` closure of `copy_many_return_values`: copies
the listed source registers of the callee window into consecutive
destination registers of the window based at `destBase`, threading the
value stack and the running destination register. -/
def copy_regs (consts : List Nat) (sp destBase : Nat) :
    List Reg → List Nat × Reg → List Nat × Reg
  | [], st => st
  | v :: vs, (stack, result) =>
      copy_regs consts sp destBase vs
        (writeReg stack destBase result (readReg stack consts sp v), result.next)

/-- The continuation-chain walk of `copy_many_return_values`: consumes
`RegisterList` segments while they appear, then one terminal
`Register`/`Register2`/`Register3` operand, copying every encountered
register; yields the new value stack and the number of continuation
operands consumed. `none` models the `unreachable!` fault on any other
instruction shape. -/
def copy_many_walk (consts : List Nat) (sp destBase : Nat) :
    List Instruction → List Nat × Reg → Option (List Nat × Nat)
  | Instruction.RegisterList a b c :: rest, st =>
      match copy_many_walk consts sp destBase rest
          (copy_regs consts sp destBase [a, b, c] st) with
      | some (stack, n) => some (stack, n + 1)
      | none => none
  | Instruction.Register r :: _, st =>
      some ((copy_regs consts sp destBase [r] st).1, 1)
  | Instruction.Register2 a b :: _, st =>
      some ((copy_regs consts sp destBase [a, b] st).1, 1)
  | Instruction.Register3 a b c :: _, st =>
      some ((copy_regs consts sp destBase [a, b, c] st).1, 1)
  | _, _ => none

/-- Rust `Executor::copy_many_return_values`: copies the inline `values`
registers and then the continuation chain starting at stream position `ip`
into the caller's results window; yields the new value stack and the
number of continuation operands the walk consumed (its final local
instruction pointer is `ip` plus that count minus one, positioned at the
terminal operand it consumed). `none` models the panics. -/
def copy_many_return_values (s : ExecState) (code : List Instruction)
    (ip : Nat) (values : List Reg) : Option (List Nat × Nat) :=
  match return_caller_results s with
  | none => none
  | some (destBase, results) =>
      copy_many_walk s.consts s.sp destBase (code.drop ip)
        (copy_regs s.consts s.sp destBase values (s.values, results.head))

/-- Rust `Executor::execute_return_many`: steps past the instruction,
copies the inline registers plus the continuation chain, then performs the
return transition. -/
def execute_return_many (code : List Instruction) (s : ExecState)
    (v1 v2 v3 : Reg) : Option (ReturnOutcome × ExecState) :=
  match copy_many_return_values s code (s.ip + 1) [v1, v2, v3] with
  | none => none
  | some (stack, _) => return_impl { s with ip := s.ip + 1, values := stack }

/-- Modelled from the spec: `Executor::skip_register_list` (its source is
not part of this repository slice) advances past the continuation grammar
without copying: past every leading `RegisterList` segment and then past
the one terminal operand that must follow. Yields the number of operands
skipped. -/
def skip_register_list : List Instruction → Nat
  | Instruction.RegisterList _ _ _ :: rest => skip_register_list rest + 1
  | _ => 1

/-- Rust `Executor::execute_return_nez_impl`: reads the boolean condition
register; if true performs the given unconditional return variant `f`,
if false advances the instruction pointer by one and reports `Wasm`. -/
def execute_return_nez_impl (s : ExecState) (condition : Reg)
    (f : ExecState → Option (ReturnOutcome × ExecState)) :
    Option (ReturnOutcome × ExecState) :=
  if s.get_register condition ≠ 0 then f s
  else some (ReturnOutcome.Wasm, { s with ip := s.ip + 1 })

/-- Rust `Executor::execute_return_nez_many`: reads the condition, steps
past the instruction; if true copies the continuation chain and returns,
if false skips the continuation chain and reports `Wasm`. -/
def execute_return_nez_many (code : List Instruction) (s : ExecState)
    (condition : Reg) (v1 v2 : Reg) : Option (ReturnOutcome × ExecState) :=
  if s.get_register condition ≠ 0 then
    match copy_many_return_values s code (s.ip + 1) [v1, v2] with
    | none => none
    | some (stack, _) => return_impl { s with ip := s.ip + 1, values := stack }
  else
    some (ReturnOutcome.Wasm,
      { s with ip := s.ip + 1 + skip_register_list (code.drop (s.ip + 1)) })

/-- A well-formed continuation chain: zero or more `RegisterList` segments
followed by a 1-, 2- or 3-register terminal operand. -/
inductive Chain : List Instruction → Prop where
  | one (r : Reg) : Chain [Instruction.Register r]
  | two (a b : Reg) : Chain [Instruction.Register2 a b]
  | three (a b c : Reg) : Chain [Instruction.Register3 a b c]
  | cons (a b c : Reg) {rest : List Instruction} :
      Chain rest → Chain (Instruction.RegisterList a b c :: rest)

/-! ## Concrete sample data used to exercise the model -/

/-- A caller frame used in concrete runs of the return protocol. -/
def sampleCaller : CallFrame :=
  { base_offset := 1, results := ⟨⟨0⟩⟩, owns_instance := false,
    instanceId := 5, instr_ptr := 9 }

/-- A callee frame used in concrete runs of the return protocol. -/
def sampleCallee : CallFrame :=
  { base_offset := 3, results := ⟨⟨1⟩⟩, owns_instance := true,
    instanceId := 7, instr_ptr := 2 }

/-- A nested executor state: the callee is active, one caller beneath. -/
def sampleState : ExecState :=
  { calls := [sampleCallee, sampleCaller], values := [10, 20, 30, 40, 50],
    ip := 0, sp := 3, cache := 0, consts := [] }

/-- The root activation frame of a single-frame call stack. -/
def rootFrame : CallFrame :=
  { base_offset := 0, results := ⟨⟨0⟩⟩, owns_instance := false,
    instanceId := 0, instr_ptr := 0 }

/-- A root-only executor state whose register 0 holds the value 0. -/
def rootState : ExecState :=
  { calls := [rootFrame], values := [0, 0, 0, 0], ip := 0, sp := 0,
    cache := 0, consts := [] }

/-- A continuation chain of two register-list segments and a one-register
terminal operand. -/
def sampleChain : List Instruction :=
  [Instruction.RegisterList ⟨1⟩ ⟨1⟩ ⟨1⟩,
   Instruction.RegisterList ⟨1⟩ ⟨1⟩ ⟨1⟩,
   Instruction.Register ⟨1⟩]

/-- An instruction stream: one instruction followed by `sampleChain`. -/
def sampleCode : List Instruction :=
  Instruction.Other :: sampleChain

/-! ## Theorems -/

/-- C6: for every 16-bit signed register index `n` and every 16-bit count
`k`, `Reg(n).next_n(k).prev_n(k) == Reg(n)`, the arithmetic wrapping
modularly at the boundaries of the 16-bit signed range; in particular
`Reg(32767).next() == Reg(-32768)`. -/
theorem reg_next_n_prev_n_roundtrip :
    (∀ (n : Int) (k : Nat), -2 ^ 15 ≤ n → n < 2 ^ 15 → k < 2 ^ 16 →
      ((Reg.mk n).next_n k).prev_n k = Reg.mk n) ∧
    (Reg.mk 32767).next = Reg.mk (-32768) := by
  constructor
  · intro n k h1 h2 h3
    simp only [Reg.next_n, Reg.prev_n, wrap16, Reg.mk.injEq]
    omega
  · decide

/-- Witness for C6 at `n = -5`, `k = 70000 % 2^16`. -/
theorem reg_next_n_prev_n_roundtrip_witness :
    ((Reg.mk (-5)).next_n 4464).prev_n 4464 = Reg.mk (-5) :=
  reg_next_n_prev_n_roundtrip.1 (-5) 4464 (by decide) (by decide) (by decide)

/-- C7: converting a `BranchOffset` whose delta fits the 16-bit signed
range into a `BranchOffset16` succeeds and preserves the numeric value
(for example 4 stays 4); a delta outside the range (for example 40000)
fails with the recoverable branch-offset-out-of-bounds translation
error. -/
theorem branchOffset16_try_from_spec :
    (∀ o : BranchOffset, -2 ^ 15 ≤ o.to_i32 → o.to_i32 < 2 ^ 15 →
      BranchOffset16.try_from o = Except.ok ⟨o.to_i32⟩) ∧
    (∀ o : BranchOffset, ¬(-2 ^ 15 ≤ o.to_i32 ∧ o.to_i32 < 2 ^ 15) →
      BranchOffset16.try_from o =
        Except.error TranslationError.branchOffsetOutOfBounds) ∧
    BranchOffset16.try_from ⟨4⟩ = Except.ok ⟨4⟩ ∧
    BranchOffset16.try_from ⟨40000⟩ =
      Except.error TranslationError.branchOffsetOutOfBounds := by
  refine ⟨?_, ?_, by decide, by decide⟩
  · intro o h1 h2
    simp only [BranchOffset16.try_from, if_pos (⟨h1, h2⟩ : _ ∧ _)]
  · intro o h
    simp only [BranchOffset16.try_from, if_neg h]

/-- Witness for C7 at the offsets 4 and 40000. -/
theorem branchOffset16_try_from_spec_witness :
    BranchOffset16.try_from ⟨4⟩ = Except.ok ⟨4⟩ ∧
    BranchOffset16.try_from ⟨40000⟩ =
      Except.error TranslationError.branchOffsetOutOfBounds :=
  ⟨branchOffset16_try_from_spec.1 ⟨4⟩ (by decide) (by decide),
   branchOffset16_try_from_spec.2.1 ⟨40000⟩ (by decide)⟩

/-- C10: `from_src_to_dst(p, p)` returns `Ok` of the zero `BranchOffset`
without panicking; that value is exactly the uninitialized state, its
`is_init` is `false`, and passing it as the source of `init` on any other
offset hits the fatal initialization assertion. -/
theorem from_src_to_dst_self_uninit :
    (∀ p : Nat, p < 2 ^ 32 →
      BranchOffset.from_src_to_dst p p = some (Except.ok (BranchOffset.mk 0))) ∧
    BranchOffset.mk 0 = BranchOffset.uninit ∧
    (BranchOffset.mk 0).is_init = false ∧
    (∀ o : BranchOffset, o.init (BranchOffset.mk 0) = none) := by
  refine ⟨?_, rfl, rfl, ?_⟩
  · intro p hp
    simp only [BranchOffset.from_src_to_dst, checkedSubI64, sub_self]
    norm_num
  · intro o
    simp [BranchOffset.init, BranchOffset.is_init, BranchOffset.to_i32]

/-- Witness for C10 at position 7 and target offset 5. -/
theorem from_src_to_dst_self_uninit_witness :
    BranchOffset.from_src_to_dst 7 7 = some (Except.ok (BranchOffset.mk 0)) ∧
    (BranchOffset.mk 5).init (BranchOffset.mk 0) = none :=
  ⟨from_src_to_dst_self_uninit.1 7 (by decide),
   from_src_to_dst_self_uninit.2.2.2 ⟨5⟩⟩

/-- C4 (the code contradicts the claim): `from_src_to_dst(14, 10)` with
`dst < src` does not abort — the `unreachable!` guard sits on an `i64`
`checked_sub` that can never overflow for two `u32` positions — it
returns `Ok` of the negative delta; and for all `u32` positions the
function never reaches the panic. -/
theorem from_src_to_dst_backward_no_panic :
    BranchOffset.from_src_to_dst 14 10 =
      some (Except.ok (BranchOffset.mk (-4))) ∧
    (∀ src dst : Nat, src < 2 ^ 32 → dst < 2 ^ 32 →
      BranchOffset.from_src_to_dst src dst ≠ none) := by
  refine ⟨by decide, ?_⟩
  intro src dst h1 h2
  have hs : ((dst : Int) - (src : Int)) < 2 ^ 63 := by omega
  have hs2 : -2 ^ 63 ≤ ((dst : Int) - (src : Int)) := by omega
  simp only [BranchOffset.from_src_to_dst, checkedSubI64, if_pos (⟨hs2, hs⟩ : _ ∧ _)]
  split <;> simp

/-- Witness for C4 at `src = 100`, `dst = 3`. -/
theorem from_src_to_dst_backward_no_panic_witness :
    BranchOffset.from_src_to_dst 14 10 =
      some (Except.ok (BranchOffset.mk (-4))) ∧
    BranchOffset.from_src_to_dst 100 3 ≠ none :=
  ⟨from_src_to_dst_backward_no_panic.1,
   from_src_to_dst_backward_no_panic.2 100 3 (by decide) (by decide)⟩

/-- C8: when `bump_by` fails — the widened addition or the narrowing back
to 32 bits overflows — the stored fuel total is unchanged by the call. -/
theorem bump_by_error_unchanged :
    ∀ (f : BlockFuel) (amount : Nat) (e : TranslationError),
      (f.bump_by amount).1 = Except.error e → (f.bump_by amount).2 = f := by
  intro f amount e h
  unfold BlockFuel.bump_by checkedAddU64 at h ⊢
  split at h
  · rfl
  · split at h
    · simp at h
    · rename_i hc
      rw [if_neg hc]

/-- Witness for C8 at a fuel counter already at the 32-bit maximum bumped
by 1. -/
theorem bump_by_error_unchanged_witness :
    ((BlockFuel.mk 4294967295).bump_by 1).1 =
      Except.error TranslationError.blockFuelOutOfBounds ∧
    ((BlockFuel.mk 4294967295).bump_by 1).2 = BlockFuel.mk 4294967295 :=
  ⟨by decide,
   bump_by_error_unchanged ⟨4294967295⟩ 1 TranslationError.blockFuelOutOfBounds
     (by decide)⟩

/-- Characterization of a successful `bump_by`: it succeeds exactly when
the new total fits in 32 bits, and then stores the sum. -/
theorem bump_by_eq_ok (f g : BlockFuel) (a : Nat) :
    f.bump_by a = (Except.ok (), g) ↔ f.val + a < 2 ^ 32 ∧ g = ⟨f.val + a⟩ := by
  unfold BlockFuel.bump_by checkedAddU64 BlockFuel.to_u64
  by_cases h64 : f.val + a < 2 ^ 64
  · rw [if_pos h64]
    dsimp only
    by_cases h32 : f.val + a < 2 ^ 32
    · rw [if_pos h32]
      simp [Prod.ext_iff, h32, eq_comm]
      intro _
      omega
    · rw [if_neg h32]
      simp only [Prod.ext_iff]
      constructor
      · intro h
        exact absurd h.1 (by simp)
      · intro h
        exact absurd h.1 h32
  · rw [if_neg h64]
    dsimp only
    constructor
    · intro h
      exact absurd (congrArg Prod.fst h) (by simp)
    · intro h
      exact absurd h.1 (by omega)

/-- C5 counterexample: the claim that any `bump_by` on a `BlockFuel`
already at the 32-bit unsigned maximum fails is false — bumping by the
amount 0 succeeds and leaves the total at the maximum. -/
theorem blockFuel_bump_at_max_by_zero_succeeds :
    (BlockFuel.mk 4294967295).bump_by 0 =
      (Except.ok (), BlockFuel.mk 4294967295) := by decide

/-- C5 (amended): sequential `bump_by` calls that both succeed are
equivalent to one `bump_by` of the summed amount; `BlockFuel::try_from`
of 100 succeeds; bumping 100 by 50 yields 150; and a `BlockFuel` at the
32-bit unsigned maximum fails on any `bump_by` of a positive amount. -/
theorem blockFuel_bump_by_assoc :
    (∀ (f f1 f2 : BlockFuel) (a b : Nat), a < 2 ^ 64 → b < 2 ^ 64 →
      f.bump_by a = (Except.ok (), f1) → f1.bump_by b = (Except.ok (), f2) →
      f.bump_by (a + b) = (Except.ok (), f2)) ∧
    BlockFuel.try_from 100 = Except.ok (BlockFuel.mk 100) ∧
    (BlockFuel.mk 100).bump_by 50 = (Except.ok (), BlockFuel.mk 150) ∧
    (∀ amount : Nat, 0 < amount →
      ((BlockFuel.mk 4294967295).bump_by amount).1 =
        Except.error TranslationError.blockFuelOutOfBounds) := by
  refine ⟨?_, by decide, by decide, ?_⟩
  · intro f f1 f2 a b ha hb h1 h2
    rw [bump_by_eq_ok] at h1 h2 ⊢
    obtain ⟨hlt1, rfl⟩ := h1
    obtain ⟨hlt2, rfl⟩ := h2
    dsimp only at hlt2 ⊢
    exact ⟨by omega, by rw [Nat.add_assoc]⟩
  · intro amount hpos
    unfold BlockFuel.bump_by checkedAddU64
    split
    · rfl
    · rename_i new heq
      split at heq
      · injection heq with hnew
        simp only [BlockFuel.to_u64] at hnew
        rw [if_neg (show ¬ new < 2 ^ 32 by omega)]
      · simp at heq

/-- Witness for C5: fuel 10 bumped by 5 then by 7 equals one bump by 12,
and the maximal counter fails on a bump by 1. -/
theorem blockFuel_bump_by_assoc_witness :
    (BlockFuel.mk 10).bump_by (5 + 7) = (Except.ok (), BlockFuel.mk 22) ∧
    ((BlockFuel.mk 4294967295).bump_by 1).1 =
      Except.error TranslationError.blockFuelOutOfBounds :=
  ⟨blockFuel_bump_by_assoc.1 ⟨10⟩ ⟨15⟩ ⟨22⟩ 5 7 (by decide) (by decide)
      (by decide) (by decide),
   blockFuel_bump_by_assoc.2.2.2 1 (by decide)⟩

/-- C2: the return transition pops exactly the top frame, truncates the
value stack to the popped frame's base offset, and reports `Wasm`
(reinitializing the instruction pointer and the register-window pointer
from the caller) when a caller frame remains, `Host` when none does. -/
theorem return_impl_spec (s : ExecState) (frame : CallFrame)
    (rest : List CallFrame) (h : s.calls = frame :: rest) :
    ∃ out s2, return_impl s = some (out, s2) ∧
      s2.calls = rest ∧
      s2.values = s.values.take frame.base_offset ∧
      (match rest with
       | [] => out = ReturnOutcome.Host
       | caller :: _ =>
           out = ReturnOutcome.Wasm ∧ s2.ip = caller.instr_ptr ∧
           s2.sp = caller.base_offset) := by
  rcases rest with _ | ⟨caller, rest2⟩
  · refine ⟨ReturnOutcome.Host,
      { s with calls := [],
               values := s.values.take frame.base_offset,
               cache := if frame.owns_instance then s.cache else s.cache },
      ?_, rfl, rfl, rfl⟩
    simp [return_impl, h]
  · refine ⟨ReturnOutcome.Wasm,
      { s with calls := caller :: rest2,
               values := s.values.take frame.base_offset,
               cache := if frame.owns_instance then caller.instanceId else s.cache,
               ip := caller.instr_ptr,
               sp := caller.base_offset },
      ?_, rfl, rfl, rfl, rfl, rfl⟩
    simp [return_impl, h]

/-- Witness for C2 on the nested sample state: the callee frame is popped,
the value stack is truncated to its base offset 3, and the resumed caller
supplies the instruction and window pointers. -/
theorem return_impl_spec_witness :
    ∃ out s2, return_impl sampleState = some (out, s2) ∧
      s2.calls = [sampleCaller] ∧
      s2.values = sampleState.values.take sampleCallee.base_offset ∧
      (out = ReturnOutcome.Wasm ∧ s2.ip = sampleCaller.instr_ptr ∧
        s2.sp = sampleCaller.base_offset) :=
  return_impl_spec sampleState sampleCallee [sampleCaller] rfl

/-- C9: a conditional return whose condition register holds zero reports
outcome `Wasm` unconditionally with the call stack and value stack left
unchanged — only the instruction pointer moves — even when the active
frame is the root frame, where the corresponding true branch would have
reported `Host`. -/
theorem return_nez_false_is_wasm (s : ExecState) (condition : Reg)
    (f : ExecState → Option (ReturnOutcome × ExecState))
    (code : List Instruction) (v1 v2 : Reg)
    (h : s.get_register condition = 0) :
    execute_return_nez_impl s condition f =
      some (ReturnOutcome.Wasm, { s with ip := s.ip + 1 }) ∧
    execute_return_nez_many code s condition v1 v2 =
      some (ReturnOutcome.Wasm,
        { s with ip := s.ip + 1 + skip_register_list (code.drop (s.ip + 1)) }) ∧
    (∀ frame, s.calls = [frame] →
      ∃ s2, return_impl s = some (ReturnOutcome.Host, s2)) := by
  refine ⟨?_, ?_, ?_⟩
  · simp [execute_return_nez_impl, h]
  · simp [execute_return_nez_many, h]
  · intro frame hf
    refine ⟨{ s with calls := [],
                     values := s.values.take frame.base_offset,
                     cache := if frame.owns_instance then s.cache else s.cache },
      ?_⟩
    simp [return_impl, hf]

/-- Witness for C9 on the root-only sample state with condition register
0 holding the value 0. -/
theorem return_nez_false_is_wasm_witness :
    execute_return_nez_impl rootState ⟨0⟩ (fun _ => none) =
      some (ReturnOutcome.Wasm, { rootState with ip := rootState.ip + 1 }) ∧
    (∀ frame, rootState.calls = [frame] →
      ∃ s2, return_impl rootState = some (ReturnOutcome.Host, s2)) :=
  ⟨(return_nez_false_is_wasm rootState ⟨0⟩ (fun _ => none) [] ⟨0⟩ ⟨0⟩
      (by decide)).1,
   (return_nez_false_is_wasm rootState ⟨0⟩ (fun _ => none) [] ⟨0⟩ ⟨0⟩
      (by decide)).2.2⟩

/-- Skipping a well-formed continuation chain advances past exactly the
chain's operands, whatever follows it in the stream. -/
theorem skip_register_list_chain {ch : List Instruction} (h : Chain ch)
    (rest : List Instruction) :
    skip_register_list (ch ++ rest) = ch.length := by
  induction h with
  | one r => rfl
  | two a b => rfl
  | three a b c => rfl
  | cons a b c hch ih =>
      simp only [List.cons_append, skip_register_list, List.append_eq, ih,
        List.length_cons]

/-- The copy walk over a well-formed continuation chain succeeds and
consumes exactly the chain's operands, whatever follows it in the
stream. -/
theorem copy_many_walk_chain (consts : List Nat) (sp destBase : Nat)
    {ch : List Instruction} (h : Chain ch) (rest : List Instruction)
    (st : List Nat × Reg) :
    ∃ stack, copy_many_walk consts sp destBase (ch ++ rest) st =
      some (stack, ch.length) := by
  induction h generalizing st with
  | one r => exact ⟨_, rfl⟩
  | two a b => exact ⟨_, rfl⟩
  | three a b c => exact ⟨_, rfl⟩
  | cons a b c hch ih =>
      obtain ⟨stack, hs⟩ := ih (copy_regs consts sp destBase [a, b, c] st)
      refine ⟨stack, ?_⟩
      simp only [List.cons_append, copy_many_walk, List.append_eq, hs,
        List.length_cons]

/-- C3: on a well-formed continuation chain, the false branch of the
conditional many-value return advances the instruction pointer to exactly
the position past the last continuation operand that the true branch's
copy routine consumes — the copy walk consumes exactly the chain — while
popping zero frames and copying zero values (the result state differs
from the input state only in the instruction pointer). -/
theorem return_nez_many_skip_matches_copy (s : ExecState)
    (code : List Instruction) (condition v1 v2 : Reg) (frame : CallFrame)
    (fs : List CallFrame) (ch rest : List Instruction)
    (hcalls : s.calls = frame :: fs) (hch : Chain ch)
    (hcode : code.drop (s.ip + 1) = ch ++ rest)
    (hcond : s.get_register condition = 0) :
    (∃ stack, copy_many_return_values s code (s.ip + 1) [v1, v2] =
      some (stack, ch.length)) ∧
    execute_return_nez_many code s condition v1 v2 =
      some (ReturnOutcome.Wasm, { s with ip := s.ip + 1 + ch.length }) := by
  constructor
  · have hres : ∃ destBase results,
        return_caller_results s = some (destBase, results) := by
      rcases fs with _ | ⟨caller, fs2⟩
      · exact ⟨0, ⟨⟨0⟩⟩, by simp [return_caller_results, hcalls]⟩
      · exact ⟨caller.base_offset, frame.results,
          by simp [return_caller_results, hcalls]⟩
    obtain ⟨destBase, results, hres⟩ := hres
    unfold copy_many_return_values
    rw [hres, hcode]
    exact copy_many_walk_chain s.consts s.sp destBase hch rest _
  · simp [execute_return_nez_many, hcond, hcode,
      skip_register_list_chain hch rest]

/-- Witness for C3 on the root-only sample state and the sample chain of
two register-list segments plus a one-register terminal. -/
theorem return_nez_many_skip_matches_copy_witness :
    (∃ stack, copy_many_return_values rootState sampleCode (rootState.ip + 1)
        [⟨1⟩, ⟨1⟩] = some (stack, sampleChain.length)) ∧
    execute_return_nez_many sampleCode rootState ⟨0⟩ ⟨1⟩ ⟨1⟩ =
      some (ReturnOutcome.Wasm,
        { rootState with ip := rootState.ip + 1 + sampleChain.length }) :=
  return_nez_many_skip_matches_copy rootState sampleCode ⟨0⟩ ⟨1⟩ ⟨1⟩
    rootFrame [] sampleChain [] rfl
    (Chain.cons _ _ _ (Chain.cons _ _ _ (Chain.one _))) rfl (by decide)

/-- Every comparator discriminant is at most 37. -/
theorem toU32_le (c : Comparator) : c.toU32 ≤ 37 := by
  cases c <;> decide

/-- Decoding inverts the discriminant of every comparator. -/
theorem fromU32_toU32 (c : Comparator) : Comparator.fromU32 c.toU32 = some c := by
  cases c <;> rfl

/-- A value shifted left by 32 shares no set bit with a value below
`2 ^ 32`, so their bitwise AND is zero. -/
theorem shiftLeft32_and_eq_zero {hi lo : Nat} (h : lo < 2 ^ 32) :
    (hi <<< 32) &&& lo = 0 := by
  apply Nat.eq_of_testBit_eq
  intro i
  rw [Nat.testBit_and, Nat.zero_testBit]
  rcases lt_or_ge i 32 with hlt | hge
  · rw [Nat.testBit_shiftLeft]
    simp [Nat.not_le.mpr hlt]
  · have hlo : lo < 2 ^ i :=
      lt_of_lt_of_le h (Nat.pow_le_pow_right (by norm_num) hge)
    rw [Nat.testBit_lt_two_pow hlo]
    simp

/-- Bits 32 to 63 of any value in the interval from `2 ^ 64 - 2 ^ 32` to
`2 ^ 64` are all set. -/
theorem testBit_high_ones {lo i : Nat} (h1 : 2 ^ 64 - 2 ^ 32 ≤ lo)
    (h2 : lo < 2 ^ 64) (hi1 : 32 ≤ i) (hi2 : i < 64) :
    lo.testBit i = true := by
  have hpow : (2 : Nat) ^ 32 ≤ 2 ^ i := Nat.pow_le_pow_right (by norm_num) hi1
  have hsplit : 2 ^ (64 - i) * 2 ^ i = 2 ^ 64 := by
    rw [← pow_add]
    congr 1
    omega
  have hdiv : lo / 2 ^ i = 2 ^ (64 - i) - 1 := by
    have hub : lo / 2 ^ i < 2 ^ (64 - i) := by
      apply Nat.div_lt_of_lt_mul
      rw [Nat.mul_comm]
      omega
    have hmul : (2 ^ (64 - i) - 1) * 2 ^ i = 2 ^ 64 - 2 ^ i := by
      rw [Nat.sub_mul, one_mul, hsplit]
    have hlb : 2 ^ (64 - i) - 1 ≤ lo / 2 ^ i := by
      rw [Nat.le_div_iff_mul_le (Nat.pos_pow_of_pos i (by norm_num))]
      omega
    omega
  rw [Nat.testBit_to_div_mod, hdiv]
  simp only [decide_eq_true_eq]
  have h2e : (2 : Nat) ^ (64 - i) = 2 * 2 ^ (63 - i) := by
    rw [← pow_succ']
    congr 1
    omega
  have hpos : 0 < (2 : Nat) ^ (63 - i) := Nat.pos_pow_of_pos _ (by norm_num)
  omega

/-- ANDing a value shifted left by 32 (with the unshifted value below
`2 ^ 32`) against a value whose bits 32 to 63 are all set leaves the
shifted value unchanged. -/
theorem shiftLeft32_and_high {hi lo : Nat} (hhi : hi < 2 ^ 32)
    (h1 : 2 ^ 64 - 2 ^ 32 ≤ lo) (h2 : lo < 2 ^ 64) :
    (hi <<< 32) &&& lo = hi <<< 32 := by
  apply Nat.eq_of_testBit_eq
  intro i
  rw [Nat.testBit_and]
  rcases lt_or_ge i 32 with hlt | hge32
  · have hz : (hi <<< 32).testBit i = false := by
      rw [Nat.testBit_shiftLeft]
      simp [Nat.not_le.mpr hlt]
    rw [hz]
    simp
  · rcases lt_or_ge i 64 with hlt64 | hge64
    · rw [testBit_high_ones h1 h2 hge32 hlt64, Bool.and_true]
    · have hsh : hi <<< 32 < 2 ^ i := by
        rw [Nat.shiftLeft_eq]
        calc hi * 2 ^ 32 < 2 ^ 32 * 2 ^ 32 :=
              Nat.mul_lt_mul_of_pos_right hhi (by norm_num)
          _ = 2 ^ 64 := by norm_num
          _ ≤ 2 ^ i := Nat.pow_le_pow_right (by norm_num) hge64
      rw [Nat.testBit_lt_two_pow hsh]
      simp

/-- For a non-negative offset the packed encoding is zero: the low half
has no bits above 31 and the high half none below 32, and the source ANDs
them. -/
theorem as_u64_eq_zero (cmp : Comparator) (off : Int) (h0 : 0 ≤ off)
    (h1 : off < 2 ^ 31) :
    (ComparatorAndOffset.new cmp ⟨off⟩).as_u64 = 0 := by
  unfold ComparatorAndOffset.new ComparatorAndOffset.as_u64 u64ofI32
    BranchOffset.to_i32
  apply shiftLeft32_and_eq_zero
  have hmod : off % 2 ^ 64 = off := Int.emod_eq_of_lt h0 (by omega)
  rw [hmod]
  omega

/-- For a negative offset the sign-extending cast sets bits 32 to 63 of
the low half, so the AND keeps exactly the shifted comparator and drops
the offset. -/
theorem as_u64_eq_shift (cmp : Comparator) (off : Int) (h0 : -2 ^ 31 ≤ off)
    (h1 : off < 0) :
    (ComparatorAndOffset.new cmp ⟨off⟩).as_u64 = cmp.toU32 <<< 32 := by
  unfold ComparatorAndOffset.new ComparatorAndOffset.as_u64 u64ofI32
    BranchOffset.to_i32
  have hmod : off % 2 ^ 64 = off + 2 ^ 64 := by omega
  rw [hmod]
  exact shiftLeft32_and_high
    (lt_of_le_of_lt (toU32_le cmp) (by norm_num))
    (by omega) (by omega)

/-- Decoding the zero word yields the comparator with discriminant 0 and
the zero offset. -/
theorem from_u64_zero :
    ComparatorAndOffset.from_u64 0 = some ⟨Comparator.I32Eq, ⟨0⟩⟩ := by
  decide

/-- Decoding a pure shifted discriminant recovers the comparator but a
zero offset. -/
theorem from_u64_of_shift (cmp : Comparator) :
    ComparatorAndOffset.from_u64 (cmp.toU32 <<< 32) = some ⟨cmp, ⟨0⟩⟩ := by
  unfold ComparatorAndOffset.from_u64
  have h1 : (cmp.toU32 <<< 32) >>> 32 % 2 ^ 32 = cmp.toU32 := by
    rw [Nat.shiftLeft_eq, Nat.shiftRight_eq_div_pow,
      Nat.mul_div_cancel _ (Nat.pos_pow_of_pos 32 (by norm_num))]
    exact Nat.mod_eq_of_lt (lt_of_le_of_lt (toU32_le cmp) (by norm_num))
  have h2 : (cmp.toU32 <<< 32) &&& 4294967295 = 0 :=
    shiftLeft32_and_eq_zero (by norm_num)
  rw [h1, h2, fromU32_toU32]
  norm_num [i32ofU32]

/-- C1 counterexample: for the comparator `I32Ne` (nonzero discriminant 1)
and the branch offset -1, `as_u64` is not zero — the sign-extending
`i32` to `u64` cast fills the high 32 bits of the low half, so the AND
keeps the shifted discriminant. -/
theorem comparatorAndOffset_as_u64_nonzero_cex :
    Comparator.I32Ne.toU32 ≠ 0 ∧
    (ComparatorAndOffset.new Comparator.I32Ne ⟨-1⟩).as_u64 ≠ 0 := by
  constructor
  · decide
  · rw [as_u64_eq_shift Comparator.I32Ne (-1) (by norm_num) (by norm_num)]
    decide

/-- C1 (amended): for every nontrivial comparator-offset pair the encoding
is lossy and the round-trip fails — `as_u64` is zero whenever the offset
is non-negative, equals the bare shifted discriminant (losing the offset)
whenever the offset is negative, and in all nontrivial cases
`from_u64 (new(cmp, offset).as_u64())` does not reproduce the pair. -/
theorem comparatorAndOffset_roundtrip_fails :
    ∀ (cmp : Comparator) (off : Int), -2 ^ 31 ≤ off → off < 2 ^ 31 →
      (cmp.toU32 ≠ 0 ∨ off ≠ 0) →
      ((0 ≤ off → (ComparatorAndOffset.new cmp ⟨off⟩).as_u64 = 0) ∧
       (off < 0 →
         (ComparatorAndOffset.new cmp ⟨off⟩).as_u64 = cmp.toU32 <<< 32) ∧
       ComparatorAndOffset.from_u64
           ((ComparatorAndOffset.new cmp ⟨off⟩).as_u64) ≠
         some (ComparatorAndOffset.new cmp ⟨off⟩)) := by
  intro cmp off hlo hhi hnz
  refine ⟨fun h0 => as_u64_eq_zero cmp off h0 hhi,
          fun hneg => as_u64_eq_shift cmp off hlo hneg, ?_⟩
  rcases lt_or_ge off 0 with hneg | hpos
  · rw [as_u64_eq_shift cmp off hlo hneg, from_u64_of_shift]
    intro h
    simp only [ComparatorAndOffset.new, Option.some.injEq,
      ComparatorAndOffset.mk.injEq, BranchOffset.mk.injEq, true_and] at h
    omega
  · rw [as_u64_eq_zero cmp off hpos hhi, from_u64_zero]
    intro h
    simp only [ComparatorAndOffset.new, Option.some.injEq,
      ComparatorAndOffset.mk.injEq, BranchOffset.mk.injEq] at h
    obtain ⟨hc, hoff⟩ := h
    rcases hnz with hcz | hoz
    · apply hcz
      rw [← hc]
      decide
    · exact hoz hoff.symm

/-- Witness for C1 at the comparator `I64Eq` (discriminant 16) and offset
4: the encoding collapses to zero and decodes to the zero pair instead. -/
theorem comparatorAndOffset_roundtrip_fails_witness :
    (ComparatorAndOffset.new Comparator.I64Eq ⟨4⟩).as_u64 = 0 ∧
    ComparatorAndOffset.from_u64
        ((ComparatorAndOffset.new Comparator.I64Eq ⟨4⟩).as_u64) ≠
      some (ComparatorAndOffset.new Comparator.I64Eq ⟨4⟩) :=
  ⟨(comparatorAndOffset_roundtrip_fails Comparator.I64Eq 4 (by norm_num)
      (by norm_num) (Or.inl (by decide))).1 (by norm_num),
   (comparatorAndOffset_roundtrip_fails Comparator.I64Eq 4 (by norm_num)
      (by norm_num) (Or.inl (by decide))).2.2⟩

end Wasmi
